import Mathlib

/-!
Verification of the nba-proj statistical core against its specification.

The development shallowly embeds the three core stages of the repository
(`src/core/priors.py`, `src/core/simulator.py`, `src/core/pricing.py`):

* exact numeric code (the conjugate prior update, role tables) is embedded
  over `ℚ`;
* floating-point numeric code (normal CDF pricing, composite synthesis,
  the simulator) is embedded over `ℝ` in the usual real-number
  idealisation, with "NaN / non-finite" float values represented by
  `none : Option ℝ`;
* pandas tables are embedded as lists of structures, and column lookups
  as association-list lookups.
-/

namespace NbaProj

/-! ## Priors (`src/core/priors.py`)

`PRIOR_ALPHA`/`PRIOR_BETA` are the legacy global fallback prior, and
`PRIOR_BY_STAT` the per-stat seed priors (module constants at the top of
`priors.py`).  All numerals are exact in the source, so we embed over `ℚ`. -/

def PRIOR_ALPHA : ℚ := 5
def PRIOR_BETA : ℚ := 120

/-- `PRIOR_BY_STAT` dictionary: `PTS ↦ (0.45*200, 200)`, `REB ↦ (0.12*200, 200)`,
`AST ↦ (0.09*200, 200)`; absent keys yield `none` (Python `dict.get`). -/
def PRIOR_BY_STAT (stat : String) : Option (ℚ × ℚ) :=
  if stat = "PTS" then some ((45/100) * 200, 200)
  else if stat = "REB" then some ((12/100) * 200, 200)
  else if stat = "AST" then some ((9/100) * 200, 200)
  else none

/-- `ROLE_WEIGHTS` dictionary: role ↦ (min_mult, rate_mult); absent keys yield
`none`, so `isSome` is the embedding of Python `role in ROLE_WEIGHTS`. -/
def ROLE_WEIGHTS (role : String) : Option (ℚ × ℚ) :=
  if role = "starter" then some (1, 1)
  else if role = "sixth" then some (88/100, 102/100)
  else if role = "bench" then some (70/100, 98/100)
  else none

def DEFAULT_ROLE : String := "bench"

/-- Number of occurrences of `v` in `l` (`pandas.Series.value_counts` for one key). -/
def modeCount (l : List String) (v : String) : ℕ :=
  (l.filter (fun x => x == v)).length

/-- The lexicographically smallest element of a list of strings, `none` on `[]`. -/
def modePick : List String → Option String
  | [] => none
  | v :: t =>
    match modePick t with
    | none => some v
    | some w => if v < w then some v else some w

/-- First element of `pandas.Series.mode()`: the lexicographically smallest value
among those attaining the maximal multiplicity (`mode()` returns the modal values
sorted ascending and the source takes `.iloc[0]`).  `none` iff `l = []`. -/
def modeFirst (l : List String) : Option String :=
  let uniq := l.dedup
  let mx := (uniq.map (modeCount l)).foldr max 0
  modePick (uniq.filter (fun v => modeCount l v == mx))

/-- The last `n` entries of a series (`pandas.Series.tail`). -/
def seriesTail (l : List α) (n : ℕ) : List α :=
  l.drop (l.length - n)

/-- `_resolve_role` from `priors.py`: a per-game `role` series is a list of
optional strings (`none` = null/NaN entry, dropped by `.dropna()`). -/
def resolveRole (series : List (Option String)) (window : ℕ := 5) : String :=
  if series.isEmpty then DEFAULT_ROLE
  else
    let window_roles := (seriesTail series window).filterMap id
    if window_roles.isEmpty then
      let dropped := series.filterMap id
      let last := (dropped.getLast?).getD DEFAULT_ROLE
      if (ROLE_WEIGHTS last).isSome then last else DEFAULT_ROLE
    else
      let role := ((modeFirst window_roles).orElse
        (fun _ => window_roles.getLast?)).getD DEFAULT_ROLE
      if (ROLE_WEIGHTS role).isSome then role else DEFAULT_ROLE

/-- One row of the persisted priors table
(`data/parquet/priors/priors_players.csv`). -/
structure BeliefRow where
  player_id : String
  stat : String
  alpha : ℚ
  beta : ℚ
  minutes_scale : ℚ
  n_games : ℕ
  last_update : String
  role : String
  min_mult : ℚ
  rate_mult : ℚ
  deriving Repr, DecidableEq

/-- One row of the per-player aggregate `agg` built in `update_priors`
(summed minutes and stats, game count). -/
structure AggRow where
  player_id : String
  minutes : ℚ
  PTS : ℚ
  REB : ℚ
  AST : ℚ
  n_games : ℕ
  deriving Repr, DecidableEq

/-- `r[stat]` field access on an aggregate row for the three tracked stats. -/
def statTotal (r : AggRow) (stat : String) : ℚ :=
  if stat = "PTS" then r.PTS
  else if stat = "REB" then r.REB
  else if stat = "AST" then r.AST
  else 0

/-- The `pri[(pri.player_id == …) & (pri.stat == …)]` row filter. -/
def lookupOld (pri : List BeliefRow) (pid stat : String) : List BeliefRow :=
  pri.filter (fun p => p.player_id == pid && p.stat == stat)

/-- Seed prior used when no unique existing row is found:
`PRIOR_BY_STAT.get(stat)` with `(PRIOR_ALPHA, PRIOR_BETA)` as ultimate default. -/
def seedPrior (stat : String) : ℚ × ℚ :=
  match PRIOR_BY_STAT stat with
  | some base => base
  | none => (PRIOR_ALPHA, PRIOR_BETA)

/-- `(a0, b0, n0)` as selected in the `update_priors` loop: the unique existing
row's parameters when `len(old) == 1`, the stat's seed prior (with `n0 = 0`)
otherwise. -/
def priorParams (pri : List BeliefRow) (pid stat : String) : ℚ × ℚ × ℕ :=
  match lookupOld pri pid stat with
  | [p] => (p.alpha, p.beta, p.n_games)
  | _ => ((seedPrior stat).1, (seedPrior stat).2, 0)

/-- Role information for a player: `role_map.get(player_id, bench defaults)`. -/
def roleInfo (role_map : List (String × String × ℚ × ℚ)) (pid : String) :
    String × ℚ × ℚ :=
  (role_map.lookup pid).getD
    (DEFAULT_ROLE, ((ROLE_WEIGHTS DEFAULT_ROLE).getD (1, 1)).1,
      ((ROLE_WEIGHTS DEFAULT_ROLE).getD (1, 1)).2)

/-- The output row appended for one `(player, stat)` pair in `update_priors`:
`a1 = a0 + x`, `b1 = b0 + m`, `minutes_scale = 36.0`, `n_games = n0 + r.n_games`. -/
def updateRow (pri : List BeliefRow) (role_map : List (String × String × ℚ × ℚ))
    (run_date : String) (r : AggRow) (stat : String) : BeliefRow :=
  let p := priorParams pri r.player_id stat
  let ri := roleInfo role_map r.player_id
  { player_id := r.player_id
    stat := stat
    alpha := p.1 + statTotal r stat
    beta := p.2.1 + r.minutes
    minutes_scale := 36
    n_games := p.2.2 + r.n_games
    last_update := run_date
    role := ri.1
    min_mult := ri.2.1
    rate_mult := ri.2.2 }

/-- The double loop of `update_priors` (lines 144–175 of `priors.py`): one output
row per aggregate row per tracked stat. -/
def update_priors (pri : List BeliefRow) (role_map : List (String × String × ℚ × ℚ))
    (run_date : String) (agg : List AggRow) : List BeliefRow :=
  (agg.map (fun r => ["PTS", "REB", "AST"].map (updateRow pri role_map run_date r))).flatten

/-! ## Pricing mathematics (`src/core/pricing.py`)

The Python code computes with IEEE doubles via `math.erf`; we embed its
real-number idealisation.  A float that may be NaN/±inf is represented as
`Option ℝ` (`none` = non-finite, exactly the values rejected by
`np.isfinite`). -/

open Real in
/-- The error function `math.erf`. -/
noncomputable def erf (x : ℝ) : ℝ :=
  2 / Real.sqrt π * ∫ t in (0:ℝ)..x, Real.exp (-t ^ 2)

/-- `_norm_cdf`: `0.5 * (1 + erf(x / sqrt 2))`. -/
noncomputable def norm_cdf (x : ℝ) : ℝ :=
  1 / 2 * (1 + erf (x / Real.sqrt 2))

/-- The `sigma <= 1e-8` degeneracy threshold used by both probability helpers. -/
noncomputable def sigmaEps : ℝ := 1 / 10 ^ 8

/-- `_normal_over_prob` (`float(mean > line)` is the 0/1 step value). -/
noncomputable def normal_over_prob (mean sigma line : ℝ) : ℝ :=
  if sigma ≤ sigmaEps then (if line < mean then 1 else 0)
  else 1 - norm_cdf ((line - mean) / sigma)

/-- `_normal_under_prob`. -/
noncomputable def normal_under_prob (mean sigma line : ℝ) : ℝ :=
  if sigma ≤ sigmaEps then (if mean < line then 1 else 0)
  else norm_cdf ((line - mean) / sigma)

/-- `_decimal_to_prob`: `None` when the odds are absent/non-numeric or `≤ 1`,
otherwise the implied probability `1/d`. -/
noncomputable def decimal_to_prob (decimal_odds : Option ℝ) : Option ℝ :=
  match decimal_odds with
  | none => none
  | some d => if d ≤ 1 then none else some (1 / d)

/-- ASCII lower-casing of one character (`str.lower` on the ASCII side tags). -/
def lowerChar (c : Char) : Char :=
  if 65 ≤ c.toNat ∧ c.toNat ≤ 90 then Char.ofNat (c.toNat + 32) else c

/-- `str(side).lower()`; the side strings are ASCII. -/
def lowerString (s : String) : String :=
  ⟨s.data.map lowerChar⟩

/-- `_compute_fair_prob`: `None` when `mean`, `sigma` or `line` is non-finite
or the lower-cased side is not `over`/`under`. -/
noncomputable def compute_fair_prob (mean sigma : Option ℝ) (side : String)
    (line : Option ℝ) : Option ℝ :=
  match mean, sigma, line with
  | some m, some s, some l =>
    if lowerString side = "over" then some (normal_over_prob m s l)
    else if lowerString side = "under" then some (normal_under_prob m s l)
    else none
  | _, _, _ => none

/-! ## Edge construction (`build_edges` in `pricing.py`) -/

/-- One odds row (post `_load_odds`).  `line`, `decimal_odds`, `book_prob` may be
NaN (`none`); the `book_prob` column itself may be absent, which is tracked by
the `hasBookProb` flag of `build_edges`. -/
structure OddsRow where
  player_id : String
  market : String
  side : String
  line : Option ℝ
  decimal_odds : Option ℝ
  book_prob : Option ℝ

/-- One prediction row (post `_load_predictions`); every numeric field may be
NaN. -/
structure PredRow where
  player_id : String
  market : String
  mean : Option ℝ
  median : Option ℝ
  p10 : Option ℝ
  p90 : Option ℝ
  sigma : Option ℝ
  minutes : Option ℝ
  role : Option String
  min_mult : Option ℝ
  rate_mult : Option ℝ

/-- `drop_duplicates(subset=["player_id","market"])`: keep the first row for
each `(player_id, market)` key. -/
def dropDupAux : List PredRow → List (String × String) → List PredRow
  | [], _ => []
  | p :: rest, seen =>
    if (p.player_id, p.market) ∈ seen then dropDupAux rest seen
    else p :: dropDupAux rest ((p.player_id, p.market) :: seen)

def preds_slim (preds : List PredRow) : List PredRow :=
  dropDupAux preds []

/-- The left-join partner of an odds row: the first prediction row matching on
`(player_id, market)` after deduplication. -/
def findPred (preds : List PredRow) (pid market : String) : Option PredRow :=
  (preds_slim preds).find? (fun p => p.player_id == pid && p.market == market)

/-- One output row of `build_edges` (the `rationale` string column, pure
formatting, is not modelled). -/
structure EdgeRow where
  date : String
  player_id : String
  market : String
  side : String
  line : Option ℝ
  decimal_odds : Option ℝ
  book_prob : Option ℝ
  fair_p : Option ℝ
  ev : Option ℝ
  mean : Option ℝ
  sigma : Option ℝ
  minutes : Option ℝ
  role : Option String
  min_mult : Option ℝ
  rate_mult : Option ℝ

/-- `merged["decimal_odds"] * merged["fair_p"] - 1.0` with NaN propagation. -/
noncomputable def evOf (decimal_odds fair_p : Option ℝ) : Option ℝ :=
  match decimal_odds, fair_p with
  | some d, some p => some (d * p - 1)
  | _, _ => none

/-- The row-wise body of `build_edges`: left-join one odds row against the
predictions, fill `book_prob` from `decimal_odds` when that column is absent,
compute `fair_p` and `ev`. -/
noncomputable def priceRow (preds : List PredRow) (run_date : String)
    (hasBookProb : Bool) (o : OddsRow) : EdgeRow :=
  let m := findPred preds o.player_id o.market
  let mean := m.bind (fun p => p.mean)
  let sigma := m.bind (fun p => p.sigma)
  let fair_p := compute_fair_prob mean sigma o.side o.line
  { date := run_date
    player_id := o.player_id
    market := o.market
    side := o.side
    line := o.line
    decimal_odds := o.decimal_odds
    book_prob := if hasBookProb then o.book_prob else decimal_to_prob o.decimal_odds
    fair_p := fair_p
    ev := evOf o.decimal_odds fair_p
    mean := mean
    sigma := sigma
    minutes := m.bind (fun p => p.minutes)
    role := m.bind (fun p => p.role)
    min_mult := m.bind (fun p => p.min_mult)
    rate_mult := m.bind (fun p => p.rate_mult) }

/-- `build_edges` (lines 217–265 of `pricing.py`): the merged output keeps one
row per odds row; unmatched rows are kept with NaN prediction fields, never
dropped and never raising. -/
noncomputable def build_edges (odds : List OddsRow) (preds : List PredRow)
    (run_date : String) (hasBookProb : Bool) : List EdgeRow :=
  odds.map (priceRow preds run_date hasBookProb)

/-! ## Composite synthesis (`_with_composites` in `pricing.py`) -/

/-- `base`: the rows of the base markets feeding the composite pivots. -/
def baseOf (df : List PredRow) : List PredRow :=
  df.filter (fun r => r.market == "PTS" || r.market == "REB" || r.market == "AST")

/-- One pivot cell of `base.pivot_table(index="player_id", columns="market",
values=…, aggfunc="mean")`: the mean of the non-NaN values of field `f` over the
base rows of `(pid, stat)`, or `none` when there is no such value (the cell is
then absent or NaN, and `.get(pid, np.nan)` yields NaN). -/
noncomputable def cellAgg (base : List PredRow) (pid stat : String)
    (f : PredRow → Option ℝ) : Option ℝ :=
  let vs := (base.filter (fun r => r.player_id == pid && r.market == stat)).filterMap f
  if vs.isEmpty then none else some (vs.sum / vs.length)

/-- Whether the pivot for field `f` has a column for `stat`: pandas drops
all-NaN columns, so the column exists iff some base row of that market carries a
non-NaN value. -/
def colPresent (base : List PredRow) (stat : String) (f : PredRow → Option ℝ) : Bool :=
  base.any (fun r => r.market == stat && (f r).isSome)

/-- `wide_mean.index`: the players contributing at least one non-NaN `mean` to
the pivot over the base rows. -/
def pivotIndex (base : List PredRow) : List String :=
  ((base.filter (fun r => (r.mean).isSome)).map (fun r => r.player_id)).dedup

/-- `sum_sigma`: independence approximation `sqrt(Σ σᵢ²)` over the non-NaN
constituent sigmas, NaN (`none`) when none is present. -/
noncomputable def sum_sigma (sigmas : List (Option ℝ)) : Option ℝ :=
  let vs := sigmas.filterMap id
  if vs.isEmpty then none else some (Real.sqrt ((vs.map (fun s => s ^ 2)).sum))

/-- Sum of the present values (`sum(m for m in … if pd.notna(m))`). -/
def optSum (l : List (Option ℝ)) : ℝ :=
  (l.filterMap id).sum

/-- `base.sort_values("market").drop_duplicates(subset=["player_id"])` restricted
to one player: a base row attaining the smallest market string. -/
def firstMinByMarket (l : List PredRow) : Option PredRow :=
  l.foldl (fun acc r =>
    match acc with
    | none => some r
    | some b => if r.market < b.market then some r else some b) none

/-- The composite rows appended for one player of `wide_mean.index`: means sum
the present constituents (missing treated as `0`), sigmas combine by
`sum_sigma`, the percentile columns are set to NaN, and the minutes/role
columns are merged in from the player's first base row. -/
noncomputable def compRowsFor (need : List String) (base : List PredRow)
    (pid : String) : List PredRow :=
  let pts_m := cellAgg base pid "PTS" (fun r => r.mean)
  let reb_m := cellAgg base pid "REB" (fun r => r.mean)
  let ast_m := cellAgg base pid "AST" (fun r => r.mean)
  let pts_s := cellAgg base pid "PTS" (fun r => r.sigma)
  let reb_s := cellAgg base pid "REB" (fun r => r.sigma)
  let ast_s := cellAgg base pid "AST" (fun r => r.sigma)
  let keep := firstMinByMarket (base.filter (fun r => r.player_id == pid))
  let mkRow := fun (mkt : String) (mean : ℝ) (sg : Option ℝ) =>
    ({ player_id := pid
       market := mkt
       mean := some mean
       median := none
       p10 := none
       p90 := none
       sigma := sg
       minutes := keep.bind (fun r => r.minutes)
       role := keep.bind (fun r => r.role)
       min_mult := keep.bind (fun r => r.min_mult)
       rate_mult := keep.bind (fun r => r.rate_mult) } : PredRow)
  (if need.contains "PA" then
    [mkRow "PA" (pts_m.getD 0 + ast_m.getD 0) (sum_sigma [pts_s, ast_s])] else [])
  ++ (if need.contains "RA" then
    [mkRow "RA" (reb_m.getD 0 + ast_m.getD 0) (sum_sigma [reb_s, ast_s])] else [])
  ++ (if need.contains "PRA" then
    [mkRow "PRA" (optSum [pts_m, reb_m, ast_m]) (sum_sigma [pts_s, reb_s, ast_s])] else [])

/-- `_with_composites` (lines 131–186 of `pricing.py`).  The loop body reads
`wide_mean.get(stat, np.nan).get(pid, np.nan)` (and likewise on `wide_sig`) for
all three base stats; when a stat column is absent from a pivot, the outer
`.get` returns the float `np.nan` and the chained `.get(pid, …)` raises
`AttributeError` — embedded as `Except.error`. -/
noncomputable def with_composites (df : List PredRow) (composites : List String) :
    Except String (List PredRow) :=
  if composites.all (fun m => df.any (fun r => r.market == m)) then .ok df
  else
    let base := baseOf df
    if base.isEmpty then .ok df
    else
      let idx := pivotIndex base
      if idx.isEmpty then .ok df
      else if ¬ (colPresent base "PTS" (fun r => r.mean)
          ∧ colPresent base "REB" (fun r => r.mean)
          ∧ colPresent base "AST" (fun r => r.mean)
          ∧ colPresent base "PTS" (fun r => r.sigma)
          ∧ colPresent base "REB" (fun r => r.sigma)
          ∧ colPresent base "AST" (fun r => r.sigma)) then
        .error "AttributeError: nan (float) has no attribute get"
      else
        let rows := (idx.map (compRowsFor composites base)).flatten
        if rows.isEmpty then .ok df else .ok (df ++ rows)

/-! ## Simulator (`src/core/simulator.py`)

The numpy generator is abstracted as a stream of standard-normal draws plus a
cursor; `numpy`'s `Generator.normal(loc, scale)` is `loc + scale * z` for a
standard draw `z`.  The Gamma–Poisson posterior sampling, pace-shock scaling
and summarisation of one `(player, stat)` sample vector (`posterior_samples`,
`samples * pace_shock`, `summarize`) are abstracted as an arbitrary function
`SampleFn` of the quantities the source passes to them; the minutes-draw
claims proved below hold for every such function. -/

structure RNG where
  normals : ℕ → ℝ
  k : ℕ

/-- `rng.normal(loc, scale)`: consume one standard draw. -/
noncomputable def rngNormal (g : RNG) (loc scale : ℝ) : ℝ × RNG :=
  (loc + scale * g.normals g.k, ⟨g.normals, g.k + 1⟩)

/-- `np.clip(x, 6.0, 44.0)`. -/
noncomputable def clip644 (x : ℝ) : ℝ :=
  min (max x 6) 44

/-- One row of the priors table as read by the simulator. -/
structure SimPriorRow where
  player_id : String
  stat : String
  alpha : ℝ
  beta : ℝ
  role : Option String
  min_mult : Option ℝ
  rate_mult : Option ℝ

/-- Summary statistics of one sample vector (`summarize`). -/
structure Summary where
  mean : ℝ
  median : ℝ
  p10 : ℝ
  p90 : ℝ
  sigma : ℝ

/-- One output row of the simulator (`out_rows`). -/
structure SimOutRow where
  date : String
  player_id : String
  stat : String
  minutes : ℝ
  role : Option String
  min_mult : ℝ
  rate_mult : ℝ
  summ : Summary

/-- Abstraction of `posterior_samples` + pace scaling + `summarize` for one
row: arguments are `alpha`, `beta`, the drawn minutes, `rate_mult` and the
shared pace shock, threading the generator. -/
def SampleFn : Type :=
  ℝ → ℝ → ℝ → ℝ → ℝ → RNG → Summary × RNG

/-- Minutes parameters for a player: the merged minutes table (baseline 30±4
with optional overrides), with the source's `(30, 4)` fallback for a player
absent from the table. -/
def minutesOf (mt : List (String × ℝ × ℝ)) (pid : String) : ℝ × ℝ :=
  (mt.lookup pid).getD (30, 4)

/-- The main simulation loop of `simulator.py` (lines 75–120): one iteration
per `(player, stat)` prior row, with the per-player minutes-draw cache
`minutes_draws` threaded through.  Returns the output rows, the final cache
and the final generator state. -/
noncomputable def simLoop (rd : String) (mt : List (String × ℝ × ℝ)) (sf : SampleFn)
    (pace : ℝ) :
    List SimPriorRow → List (String × ℝ) → RNG →
      List SimOutRow × List (String × ℝ) × RNG
  | [], cache, g => ([], cache, g)
  | row :: rest, cache, g =>
    let mp := minutesOf mt row.player_id
    let minMult := row.min_mult.getD 1
    let rateMult := row.rate_mult.getD 1
    let m_mu_adj := mp.1 * minMult
    let m_sd_adj := mp.2 * minMult
    let step :=
      match cache.lookup row.player_id with
      | some v => (v, cache, g)
      | none =>
        let d := rngNormal g m_mu_adj m_sd_adj
        let v := clip644 d.1
        (v, (row.player_id, v) :: cache, d.2)
    let m_draw := step.1
    let s := sf row.alpha row.beta m_draw rateMult pace step.2.2
    let res := simLoop rd mt sf pace rest step.2.1 s.2
    ({ date := rd, player_id := row.player_id, stat := row.stat,
       minutes := m_draw, role := row.role, min_mult := minMult,
       rate_mult := rateMult, summ := s.1 } :: res.1, res.2.1, res.2.2)

/-- `main` of `simulator.py` after loading: draw the shared pace shock
(`rng.normal(1.0, 0.05)`) once, then run the loop with an empty minutes cache. -/
noncomputable def simMain (rd : String) (pri : List SimPriorRow)
    (mt : List (String × ℝ × ℝ)) (sf : SampleFn) (g0 : RNG) : List SimOutRow :=
  let ps := rngNormal g0 1 (5 / 100)
  (simLoop rd mt sf ps.1 pri [] ps.2).1

/-- The generator seed `abs(hash(run_date)) % (2**32)` (line 65 of
`simulator.py`).  Python's built-in `hash` on `str` is salted per process
(PYTHONHASHSEED), so the seed is a function of the process's hash function,
not of `run_date` alone; `pyHash` makes that dependency explicit. -/
def simSeed (pyHash : String → ℤ) (run_date : String) : ℕ :=
  (pyHash run_date).natAbs % 2 ^ 32

/-! ## Helper lemmas -/

lemma foldr_max_mem (l : List ℕ) : l.foldr max 0 = 0 ∨ l.foldr max 0 ∈ l := by
  induction l with
  | nil => left; rfl
  | cons a t ih =>
    rcases max_choice a (t.foldr max 0) with h | h
    · right; simp [h]
    · rcases ih with h0 | hm
      · left; rw [List.foldr_cons, h, h0]
      · right; simp [h]; right; exact hm

lemma le_foldr_max (l : List ℕ) : ∀ x ∈ l, x ≤ l.foldr max 0 := by
  induction l with
  | nil => intro x hx; cases hx
  | cons a t ih =>
    intro x hx
    rcases List.mem_cons.mp hx with rfl | hx
    · exact le_max_left _ _
    · exact le_trans (ih x hx) (le_max_right _ _)

/-- `modePick` returns an element of its input. -/
lemma modePick_mem (l : List String) (v : String)
    (h : modePick l = some v) : v ∈ l := by
  induction l generalizing v with
  | nil => simp [modePick] at h
  | cons a t ih =>
    rw [modePick] at h
    rcases ht : modePick t with _ | w
    · rw [ht] at h
      simp at h
      simp [h]
    · rw [ht] at h
      simp only at h
      by_cases hlt : a < w
      · rw [if_pos hlt] at h
        simp at h
        simp [h]
      · rw [if_neg hlt] at h
        simp at h
        exact List.mem_cons_of_mem _ (ih _ (h ▸ ht))

/-- `modePick` of a nonempty list succeeds. -/
lemma modePick_ne_none (l : List String) (hne : l ≠ []) : modePick l ≠ none := by
  cases l with
  | nil => exact absurd rfl hne
  | cons a t =>
    rw [modePick]
    rcases modePick t with _ | w
    · simp
    · simp only
      by_cases hlt : a < w <;> simp [hlt]

lemma modeCount_pos (l : List String) (v : String) (hv : v ∈ l) :
    0 < modeCount l v := by
  unfold modeCount
  rw [List.length_pos]
  intro hnil
  have : v ∈ l.filter (fun x => x == v) := by
    rw [List.mem_filter]
    exact ⟨hv, by simp⟩
  rw [hnil] at this
  cases this

/-- `modeFirst` of a nonempty list is a modal element of the list. -/
lemma modeFirst_spec (l : List String) (hne : l ≠ []) :
    ∃ v, modeFirst l = some v ∧ v ∈ l ∧
      ∀ w ∈ l, modeCount l w ≤ modeCount l v := by
  have hmf : modeFirst l = modePick (l.dedup.filter
      (fun v => modeCount l v == (l.dedup.map (modeCount l)).foldr max 0)) := rfl
  set mx := (l.dedup.map (modeCount l)).foldr max 0 with hmx
  set winners := l.dedup.filter (fun v => modeCount l v == mx) with hwin
  have hmx_attained : ∃ v ∈ l.dedup, modeCount l v = mx := by
    rcases foldr_max_mem (l.dedup.map (modeCount l)) with h0 | hm
    · -- mx = 0 is impossible: l nonempty, so its head has positive count
      exfalso
      obtain ⟨a, t, rfl⟩ := List.exists_cons_of_ne_nil hne
      have ha : a ∈ (a :: t).dedup := by
        rw [List.mem_dedup]; exact List.mem_cons_self a t
      have hle : modeCount (a :: t) a ≤ mx :=
        le_foldr_max _ _ (List.mem_map_of_mem (modeCount (a :: t)) ha)
      have hpos : 0 < modeCount (a :: t) a :=
        modeCount_pos _ _ (List.mem_cons_self a t)
      rw [← hmx] at h0
      omega
    · rcases List.mem_map.mp hm with ⟨v, hv, hveq⟩
      exact ⟨v, hv, hveq⟩
  obtain ⟨v0, hv0u, hv0⟩ := hmx_attained
  have hwne : winners ≠ [] := by
    intro hnil
    have : v0 ∈ winners := by
      rw [hwin, List.mem_filter]
      exact ⟨hv0u, by simp [hv0]⟩
    rw [hnil] at this
    cases this
  rcases hpick : modePick winners with _ | v
  · exact absurd hpick (modePick_ne_none _ hwne)
  · refine ⟨v, by rw [hmf, hpick], ?_, ?_⟩
    · have hvw : v ∈ winners := modePick_mem _ _ hpick
      rw [hwin, List.mem_filter] at hvw
      exact List.mem_dedup.mp hvw.1
    · intro x hx
      have hvw : v ∈ winners := modePick_mem _ _ hpick
      rw [hwin, List.mem_filter] at hvw
      have hvmx : modeCount l v = mx := by
        have := hvw.2; simpa using this
      have hxle : modeCount l x ≤ mx := by
        apply le_foldr_max
        exact List.mem_map_of_mem (modeCount l) (List.mem_dedup.mpr hx)
      rw [hvmx]; exact hxle

/-- The roles accepted by `ROLE_WEIGHTS` are exactly the three known ones. -/
lemma ROLE_WEIGHTS_isSome_iff (r : String) :
    (ROLE_WEIGHTS r).isSome ↔ r ∈ (["starter", "sixth", "bench"] : List String) := by
  unfold ROLE_WEIGHTS
  by_cases h1 : r = "starter"
  · simp [h1]
  · by_cases h2 : r = "sixth"
    · simp [h2]
    · by_cases h3 : r = "bench"
      · simp [h3]
      · simp [h1, h2, h3]

/-- The guarded fallback `if role in ROLE_WEIGHTS then role else bench` always
lands in the known role set. -/
lemma ifRole_isSome (r : String) :
    (ROLE_WEIGHTS (if (ROLE_WEIGHTS r).isSome then r else DEFAULT_ROLE)).isSome := by
  by_cases h : (ROLE_WEIGHTS r).isSome
  · rw [if_pos h]; exact h
  · rw [if_neg h]; simp [DEFAULT_ROLE, ROLE_WEIGHTS]

/-! ## Claim theorems -/

/-- Claim C6: for every per-game role series, the resolved role is a modal
value of the most recent window (default 5) of non-null role tags; if that
window is empty, the most recent non-null role overall; if still empty or if
the resolved value is outside the known set `{starter, sixth, bench}`, the
default `bench`.  The result is always a member of the known set, with its
fixed `(minutes_multiplier, rate_multiplier)` pair in `ROLE_WEIGHTS`. -/
theorem resolveRole_role_resolution (series : List (Option String)) :
    resolveRole series 5 ∈ (["starter", "sixth", "bench"] : List String) ∧
    (ROLE_WEIGHTS (resolveRole series 5)).isSome ∧
    ((seriesTail series 5).filterMap id ≠ [] →
      ∃ m, m ∈ (seriesTail series 5).filterMap id ∧
        (∀ w ∈ (seriesTail series 5).filterMap id,
          modeCount ((seriesTail series 5).filterMap id) w ≤
            modeCount ((seriesTail series 5).filterMap id) m) ∧
        resolveRole series 5 =
          if (ROLE_WEIGHTS m).isSome then m else DEFAULT_ROLE) ∧
    ((seriesTail series 5).filterMap id = [] →
      resolveRole series 5 =
        if (ROLE_WEIGHTS (((series.filterMap id).getLast?).getD DEFAULT_ROLE)).isSome
        then ((series.filterMap id).getLast?).getD DEFAULT_ROLE
        else DEFAULT_ROLE) := by
  by_cases hs : series = []
  · subst hs
    refine ⟨by simp [resolveRole, DEFAULT_ROLE], by simp [resolveRole, DEFAULT_ROLE, ROLE_WEIGHTS], ?_, ?_⟩
    · intro h; exact absurd (by simp [seriesTail]) h
    · intro _
      simp [resolveRole, DEFAULT_ROLE, ROLE_WEIGHTS]
  · by_cases hw : (seriesTail series 5).filterMap id = []
    · have hrr : resolveRole series 5 =
          if (ROLE_WEIGHTS (((series.filterMap id).getLast?).getD DEFAULT_ROLE)).isSome
          then ((series.filterMap id).getLast?).getD DEFAULT_ROLE
          else DEFAULT_ROLE := by
        simp [resolveRole, hs, hw]
      refine ⟨?_, ?_, ?_, fun _ => hrr⟩
      · rw [← ROLE_WEIGHTS_isSome_iff, hrr]; exact ifRole_isSome _
      · rw [hrr]; exact ifRole_isSome _
      · intro h; exact absurd hw h
    · obtain ⟨m, hmf, hmm, hmax⟩ := modeFirst_spec _ hw
      have hrr : resolveRole series 5 =
          if (ROLE_WEIGHTS m).isSome then m else DEFAULT_ROLE := by
        simp [resolveRole, hs, hw, hmf]
      refine ⟨?_, ?_, ?_, ?_⟩
      · rw [← ROLE_WEIGHTS_isSome_iff, hrr]; exact ifRole_isSome _
      · rw [hrr]; exact ifRole_isSome _
      · intro _; exact ⟨m, hmm, hmax, hrr⟩
      · intro h; exact absurd h hw

/-- Witness for C6: a concrete series whose recent window has modal value
`starter`, evaluated through the theorem. -/
theorem resolveRole_role_resolution_witness :
    resolveRole [some "bench", some "starter", some "starter"] 5 ∈
      (["starter", "sixth", "bench"] : List String) ∧
    resolveRole [some "bench", some "starter", some "starter"] 5 = "starter" :=
  ⟨(resolveRole_role_resolution [some "bench", some "starter", some "starter"]).1,
   by decide⟩

lemma seedPrior_PTS : seedPrior "PTS" = (90, 200) := by
  have h : PRIOR_BY_STAT "PTS" = some ((45/100) * 200, 200) := by
    unfold PRIOR_BY_STAT
    rw [if_pos rfl]
  unfold seedPrior
  rw [h]
  norm_num [Prod.ext_iff]

lemma seedPrior_REB : seedPrior "REB" = (24, 200) := by
  have h : PRIOR_BY_STAT "REB" = some ((12/100) * 200, 200) := by
    unfold PRIOR_BY_STAT
    rw [if_neg (by decide), if_pos rfl]
  unfold seedPrior
  rw [h]
  norm_num [Prod.ext_iff]

lemma seedPrior_AST : seedPrior "AST" = (18, 200) := by
  have h : PRIOR_BY_STAT "AST" = some ((9/100) * 200, 200) := by
    unfold PRIOR_BY_STAT
    rw [if_neg (by decide), if_neg (by decide), if_pos rfl]
  unfold seedPrior
  rw [h]
  norm_num [Prod.ext_iff]

/-- Claim C1: every row produced by the `update_priors` loop satisfies the
exact conjugate update `shape1 = shape0 + x` (summed stat) and
`rate1 = rate0 + m` (summed minutes); the previous parameters come from the
unique matching prior row, and when no prior row exists they are the
statistic-specific seed defaults — `PTS ↦ (0.45·200, 200) = (90, 200)`,
`REB ↦ (0.12·200, 200) = (24, 200)`, `AST ↦ (0.09·200, 200) = (18, 200)`,
and `(5, 120)` for any stat outside `PRIOR_BY_STAT`. -/
theorem update_priors_conjugate (pri : List BeliefRow)
    (role_map : List (String × String × ℚ × ℚ)) (run_date : String)
    (agg : List AggRow) (r : AggRow) (stat : String)
    (hr : r ∈ agg) (hs : stat ∈ (["PTS", "REB", "AST"] : List String)) :
    updateRow pri role_map run_date r stat ∈
      update_priors pri role_map run_date agg ∧
    (updateRow pri role_map run_date r stat).alpha =
      (priorParams pri r.player_id stat).1 + statTotal r stat ∧
    (updateRow pri role_map run_date r stat).beta =
      (priorParams pri r.player_id stat).2.1 + r.minutes ∧
    (lookupOld pri r.player_id stat = [] →
      (priorParams pri r.player_id stat).1 = (seedPrior stat).1 ∧
      (priorParams pri r.player_id stat).2.1 = (seedPrior stat).2) ∧
    seedPrior "PTS" = (90, 200) ∧ seedPrior "REB" = (24, 200) ∧
    seedPrior "AST" = (18, 200) ∧
    (∀ s, PRIOR_BY_STAT s = none → seedPrior s = (5, 120)) := by
  refine ⟨?_, rfl, rfl, ?_, ?_, ?_, ?_, ?_⟩
  · unfold update_priors
    exact List.mem_flatten.mpr
      ⟨_, List.mem_map_of_mem _ hr, List.mem_map_of_mem _ hs⟩
  · intro h
    unfold priorParams
    rw [h]
    exact ⟨rfl, rfl⟩
  · exact seedPrior_PTS
  · exact seedPrior_REB
  · exact seedPrior_AST
  · intro s hnone
    unfold seedPrior
    rw [hnone]
    rfl

/-- Witness for C1: one aggregate batch row for a fresh player, stat `PTS`:
the updated parameters are the seed `(90, 200)` plus the batch totals
`(x, m) = (18, 30)`. -/
theorem update_priors_conjugate_witness :
    (⟨"p1", 30, 18, 5, 4, 1⟩ : AggRow) ∈ [(⟨"p1", 30, 18, 5, 4, 1⟩ : AggRow)] ∧
    "PTS" ∈ (["PTS", "REB", "AST"] : List String) ∧
    (updateRow [] [] "2025-10-27" ⟨"p1", 30, 18, 5, 4, 1⟩ "PTS").alpha = 90 + 18 ∧
    (updateRow [] [] "2025-10-27" ⟨"p1", 30, 18, 5, 4, 1⟩ "PTS").beta = 200 + 30 := by
  have h := update_priors_conjugate [] [] "2025-10-27"
    [(⟨"p1", 30, 18, 5, 4, 1⟩ : AggRow)] ⟨"p1", 30, 18, 5, 4, 1⟩ "PTS"
    (List.mem_singleton.mpr rfl) (by decide)
  refine ⟨List.mem_singleton.mpr rfl, by decide, ?_, ?_⟩
  · rw [h.2.1]
    have hp : priorParams [] "p1" "PTS" = (90, 200, 0) := by
      unfold priorParams lookupOld
      simp [seedPrior_PTS]
    rw [hp]
    norm_num [statTotal]
  · rw [h.2.2.1]
    have hp : priorParams [] "p1" "PTS" = (90, 200, 0) := by
      unfold priorParams lookupOld
      simp [seedPrior_PTS]
    rw [hp]

lemma erf_zero : erf 0 = 0 := by
  unfold erf
  rw [intervalIntegral.integral_same]
  ring

lemma norm_cdf_zero : norm_cdf 0 = 1 / 2 := by
  unfold norm_cdf
  rw [zero_div, erf_zero]
  ring

/-- Claim C2 (amended: the `0.5` statement needs `sigma > 1e-8`, not merely
`sigma > 0`): for a wager row with finite mean, sigma and line and a valid
side, if `sigma ≤ 1e-8` the fair probability is the step function
(`1` iff `mean > line` for OVER, `1` iff `mean < line` for UNDER); otherwise
it is `1 - Φ(z)` for OVER and `Φ(z)` for UNDER with `z = (line - mean)/sigma`;
and pricing a line equal to the forecast mean with `sigma > 1e-8` yields fair
probability exactly `1/2`. -/
theorem compute_fair_prob_model (m s l : ℝ) (side : String)
    (hside : lowerString side = "over" ∨ lowerString side = "under") :
    (s ≤ sigmaEps →
      compute_fair_prob (some m) (some s) side (some l) =
        some (if lowerString side = "over" then (if l < m then 1 else 0)
              else (if m < l then 1 else 0))) ∧
    (sigmaEps < s →
      compute_fair_prob (some m) (some s) side (some l) =
        some (if lowerString side = "over" then 1 - norm_cdf ((l - m) / s)
              else norm_cdf ((l - m) / s))) ∧
    (sigmaEps < s →
      compute_fair_prob (some m) (some s) side (some m) = some (1 / 2)) := by
  rcases hside with h | h
  · have hc : ∀ x : ℝ, compute_fair_prob (some m) (some s) side (some x) =
        some (normal_over_prob m s x) := by
      intro x
      show (if lowerString side = "over" then some (normal_over_prob m s x)
            else if lowerString side = "under" then some (normal_under_prob m s x)
            else none) = some (normal_over_prob m s x)
      rw [h, if_pos rfl]
    refine ⟨?_, ?_, ?_⟩
    · intro hle
      rw [hc, h, if_pos rfl, normal_over_prob, if_pos hle]
    · intro hlt
      rw [hc, h, if_pos rfl, normal_over_prob, if_neg (not_le.mpr hlt)]
    · intro hlt
      rw [hc, normal_over_prob, if_neg (not_le.mpr hlt), sub_self, zero_div,
        norm_cdf_zero]
      norm_num
  · have hne : ¬ lowerString side = "over" := by
      rw [h]; decide
    have hc : ∀ x : ℝ, compute_fair_prob (some m) (some s) side (some x) =
        some (normal_under_prob m s x) := by
      intro x
      show (if lowerString side = "over" then some (normal_over_prob m s x)
            else if lowerString side = "under" then some (normal_under_prob m s x)
            else none) = some (normal_under_prob m s x)
      rw [if_neg hne, h, if_pos rfl]
    refine ⟨?_, ?_, ?_⟩
    · intro hle
      rw [hc, if_neg hne, normal_under_prob, if_pos hle]
    · intro hlt
      rw [hc, if_neg hne, normal_under_prob, if_neg (not_le.mpr hlt)]
    · intro hlt
      rw [hc, normal_under_prob, if_neg (not_le.mpr hlt), sub_self, zero_div,
        norm_cdf_zero]

/-- Witness for C2: side `Over` (mixed case), `mean = line = 3`, `sigma = 1`:
the theorem yields fair probability exactly `1/2`. -/
theorem compute_fair_prob_model_witness :
    (lowerString "Over" = "over" ∨ lowerString "Over" = "under") ∧
    sigmaEps < (1 : ℝ) ∧
    compute_fair_prob (some 3) (some 1) "Over" (some 3) = some (1 / 2) := by
  have hside : (lowerString "Over" = "over" ∨ lowerString "Over" = "under") :=
    Or.inl (by decide)
  have hs : sigmaEps < (1 : ℝ) := by
    unfold sigmaEps; norm_num
  exact ⟨hside, hs, (compute_fair_prob_model 3 1 3 "Over" hside).2.2 hs⟩

/-- Counterexample for C2 as stated: with `sigma = 1e-9 > 0` and the line
exactly at the mean, the OVER fair probability is the step value `0`, not
`0.5` — the step branch also covers `0 < sigma ≤ 1e-8`. -/
theorem compute_fair_prob_mean_line_counterexample :
    (0 : ℝ) < 1 / 10 ^ 9 ∧
    compute_fair_prob (some 10) (some (1 / 10 ^ 9)) "OVER" (some 10) = some 0 ∧
    (0 : ℝ) ≠ 1 / 2 := by
  refine ⟨by norm_num, ?_, by norm_num⟩
  have hstep : (1 : ℝ) / 10 ^ 9 ≤ sigmaEps := by
    unfold sigmaEps; norm_num
  show (if lowerString "OVER" = "over" then some (normal_over_prob 10 (1 / 10 ^ 9) 10)
        else if lowerString "OVER" = "under" then some (normal_under_prob 10 (1 / 10 ^ 9) 10)
        else none) = some 0
  rw [show lowerString "OVER" = "over" from by decide, if_pos rfl,
    normal_over_prob, if_pos hstep, if_neg (lt_irrefl (10 : ℝ))]

/-- Claim C3: every priced row carries the book's offered `decimal_odds`
unchanged and `ev = decimal_odds * fair_p - 1` computed from them; whenever a
fair probability `p ∈ (0,1)` is present, the EV is positive exactly on offered
odds above the fair odds `1/p` and negative below them. -/
theorem build_edges_ev (odds : List OddsRow) (preds : List PredRow)
    (rd : String) (hbp : Bool) (o : OddsRow) (ho : o ∈ odds) :
    priceRow preds rd hbp o ∈ build_edges odds preds rd hbp ∧
    (priceRow preds rd hbp o).decimal_odds = o.decimal_odds ∧
    (priceRow preds rd hbp o).ev =
      evOf o.decimal_odds (priceRow preds rd hbp o).fair_p ∧
    ∀ d p : ℝ, o.decimal_odds = some d →
      (priceRow preds rd hbp o).fair_p = some p →
      (priceRow preds rd hbp o).ev = some (d * p - 1) ∧
      (0 < p → p < 1 →
        ((1 / p < d → 0 < d * p - 1) ∧ (d < 1 / p → d * p - 1 < 0))) := by
  refine ⟨List.mem_map_of_mem _ ho, rfl, rfl, ?_⟩
  intro d p hd hp
  constructor
  · show evOf o.decimal_odds (priceRow preds rd hbp o).fair_p = some (d * p - 1)
    rw [hd, hp]
    rfl
  · intro hp0 _
    constructor
    · intro hlt
      have h1 : 1 < d * p := by
        have := (div_lt_iff hp0).mp hlt
        linarith
      linarith
    · intro hlt
      have h1 : d * p < 1 := by
        have := (lt_div_iff hp0).mp hlt
        linarith
      linarith

/-- Witness for C3: a matched wager (mean 20, sigma 0, line 10, OVER) priced
at offered odds 3 has fair probability 1 and `ev = 3·1 - 1 = 2`. -/
theorem build_edges_ev_witness :
    (⟨"p1", "PTS", "OVER", some 10, some 3, none⟩ : OddsRow) ∈
      [(⟨"p1", "PTS", "OVER", some 10, some 3, none⟩ : OddsRow)] ∧
    (priceRow [⟨"p1", "PTS", some 20, none, none, none, some 0, none, none, none, none⟩]
      "2025-10-27" true ⟨"p1", "PTS", "OVER", some 10, some 3, none⟩).ev = some 2 := by
  have hmem : (⟨"p1", "PTS", "OVER", some 10, some 3, none⟩ : OddsRow) ∈
      [(⟨"p1", "PTS", "OVER", some 10, some 3, none⟩ : OddsRow)] :=
    List.mem_singleton.mpr rfl
  refine ⟨hmem, ?_⟩
  have h := build_edges_ev [⟨"p1", "PTS", "OVER", some 10, some 3, none⟩]
    [⟨"p1", "PTS", some 20, none, none, none, some 0, none, none, none, none⟩]
    "2025-10-27" true ⟨"p1", "PTS", "OVER", some 10, some 3, none⟩ hmem
  have hfind : findPred
      [⟨"p1", "PTS", some 20, none, none, none, some 0, none, none, none, none⟩]
      "p1" "PTS" =
      some ⟨"p1", "PTS", some 20, none, none, none, some 0, none, none, none, none⟩ := by
    unfold findPred preds_slim dropDupAux
    simp
  have hfp : (priceRow [⟨"p1", "PTS", some 20, none, none, none, some 0, none, none, none, none⟩]
      "2025-10-27" true ⟨"p1", "PTS", "OVER", some 10, some 3, none⟩).fair_p = some 1 := by
    show compute_fair_prob
      ((findPred [⟨"p1", "PTS", some 20, none, none, none, some 0, none, none, none, none⟩]
        "p1" "PTS").bind (fun r => r.mean))
      ((findPred [⟨"p1", "PTS", some 20, none, none, none, some 0, none, none, none, none⟩]
        "p1" "PTS").bind (fun r => r.sigma)) "OVER" (some 10) = some 1
    rw [hfind]
    show compute_fair_prob (some 20) (some 0) "OVER" (some 10) = some 1
    show (if lowerString "OVER" = "over" then some (normal_over_prob 20 0 10)
          else if lowerString "OVER" = "under" then some (normal_under_prob 20 0 10)
          else none) = some 1
    rw [show lowerString "OVER" = "over" from by decide, if_pos rfl,
      normal_over_prob, if_pos (by unfold sigmaEps; norm_num : (0:ℝ) ≤ sigmaEps),
      if_pos (by norm_num : (10:ℝ) < 20)]
  have := (h.2.2.2 3 1 rfl hfp).1
  rw [this]
  norm_num

/-- Claim C10: `_compute_fair_prob` is total and optional — it returns `None`
exactly when `mean`, `sigma` or `line` is non-finite or the lower-cased side is
neither `over` nor `under` (so any capitalisation of the side is accepted);
and a merged row with no matching forecast yields null `fair_p` and null `ev`
instead of raising. -/
theorem compute_fair_prob_total (mean sigma line : Option ℝ) (side : String)
    (preds : List PredRow) (rd : String) (hbp : Bool) (o : OddsRow) :
    (compute_fair_prob mean sigma side line = none ↔
      mean = none ∨ sigma = none ∨ line = none ∨
        (lowerString side ≠ "over" ∧ lowerString side ≠ "under")) ∧
    (findPred preds o.player_id o.market = none →
      (priceRow preds rd hbp o).fair_p = none ∧
      (priceRow preds rd hbp o).ev = none) := by
  constructor
  · rcases mean with _ | m
    · simp [compute_fair_prob]
    rcases sigma with _ | s
    · simp [compute_fair_prob]
    rcases line with _ | l
    · simp [compute_fair_prob]
    by_cases ho : lowerString side = "over"
    · simp [compute_fair_prob, ho]
    by_cases hu : lowerString side = "under"
    · simp [compute_fair_prob, ho, hu]
    · simp [compute_fair_prob, ho, hu]
  · intro h
    have hm : (priceRow preds rd hbp o).fair_p = none := by
      show compute_fair_prob
        ((findPred preds o.player_id o.market).bind (fun p => p.mean))
        ((findPred preds o.player_id o.market).bind (fun p => p.sigma))
        o.side o.line = none
      rw [h]
      simp [compute_fair_prob]
    refine ⟨hm, ?_⟩
    show evOf o.decimal_odds (priceRow preds rd hbp o).fair_p = none
    rw [hm]
    cases o.decimal_odds <;> rfl

/-- Witness for C10: an odds row with no matching forecast prices to null
`fair_p` and null `ev`. -/
theorem compute_fair_prob_total_witness :
    findPred [] "p9" "PTS" = none ∧
    (priceRow [] "2025-10-27" true
      ⟨"p9", "PTS", "OVER", some 11, some 2, none⟩).fair_p = none ∧
    (priceRow [] "2025-10-27" true
      ⟨"p9", "PTS", "OVER", some 11, some 2, none⟩).ev = none := by
  have hf : findPred [] "p9" "PTS" = none := rfl
  have h := (compute_fair_prob_total none none none "x" [] "2025-10-27" true
      ⟨"p9", "PTS", "OVER", some 11, some 2, none⟩).2 hf
  exact ⟨hf, h.1, h.2⟩

/-- Counterexample for C7 as stated: a wager line with no matching forecast
produces exactly ONE output row (not zero) — the left-joined row itself, with
null `fair_p`/`ev` — and `build_edges` emits no separate diagnostic table at
all (its output is the single merged list). -/
theorem build_edges_unmatched_counterexample :
    build_edges [⟨"p1", "PTS", "OVER", some 10, some 2, none⟩] [] "2025-10-27" true =
      [priceRow [] "2025-10-27" true ⟨"p1", "PTS", "OVER", some 10, some 2, none⟩] ∧
    (build_edges [⟨"p1", "PTS", "OVER", some 10, some 2, none⟩] [] "2025-10-27" true).length = 1 ∧
    (priceRow [] "2025-10-27" true
      ⟨"p1", "PTS", "OVER", some 10, some 2, none⟩).fair_p = none := by
  refine ⟨rfl, rfl, ?_⟩
  show compute_fair_prob
    ((findPred [] "p1" "PTS").bind (fun p => p.mean))
    ((findPred [] "p1" "PTS").bind (fun p => p.sigma)) "OVER" (some 10) = none
  rfl

/-- Claim C7 (amended: `build_edges` produces no diagnostic side-tables; an
unmatched WagerLine is kept as one output row with null `fair_p` and `ev`, and
forecasts with no matching line simply contribute no row): the output has
exactly one row per odds row, produced totally (no exception), and every
unmatched odds row appears with its key fields preserved and null
`fair_p`/`ev`. -/
theorem build_edges_unmatched (odds : List OddsRow) (preds : List PredRow)
    (rd : String) (hbp : Bool) :
    build_edges odds preds rd hbp = odds.map (priceRow preds rd hbp) ∧
    (build_edges odds preds rd hbp).length = odds.length ∧
    ∀ o ∈ odds, findPred preds o.player_id o.market = none →
      priceRow preds rd hbp o ∈ build_edges odds preds rd hbp ∧
      (priceRow preds rd hbp o).player_id = o.player_id ∧
      (priceRow preds rd hbp o).market = o.market ∧
      (priceRow preds rd hbp o).fair_p = none ∧
      (priceRow preds rd hbp o).ev = none := by
  refine ⟨rfl, List.length_map _ _, ?_⟩
  intro o ho h
  have hfp := (compute_fair_prob_total none none none o.side preds rd hbp o).2 h
  exact ⟨List.mem_map_of_mem _ ho, rfl, rfl, hfp.1, hfp.2⟩

/-- Witness for C7 (amended): the concrete unmatched line above, via the
theorem. -/
theorem build_edges_unmatched_witness :
    (⟨"p2", "REB", "UNDER", some 7, some 2, none⟩ : OddsRow) ∈
      [(⟨"p2", "REB", "UNDER", some 7, some 2, none⟩ : OddsRow)] ∧
    findPred [] "p2" "REB" = none ∧
    (priceRow [] "2025-10-27" true
      ⟨"p2", "REB", "UNDER", some 7, some 2, none⟩).ev = none := by
  have hmem : (⟨"p2", "REB", "UNDER", some 7, some 2, none⟩ : OddsRow) ∈
      [(⟨"p2", "REB", "UNDER", some 7, some 2, none⟩ : OddsRow)] :=
    List.mem_singleton.mpr rfl
  have h := (build_edges_unmatched
    [⟨"p2", "REB", "UNDER", some 7, some 2, none⟩] [] "2025-10-27" true).2.2
    ⟨"p2", "REB", "UNDER", some 7, some 2, none⟩ hmem rfl
  exact ⟨hmem, rfl, h.2.2.2.2⟩

/-- Counterexample for C8 as stated: with `sigma = 0` and `mean > line` the
stored fair probability is exactly `1`, which lies outside `[1e-9, 1-1e-9]` —
no clamping is applied anywhere in `build_edges`. -/
theorem fair_prob_unclamped_counterexample :
    (priceRow [⟨"p1", "PTS", some 20, none, none, none, some 0, none, none, none, none⟩]
      "2025-10-27" true ⟨"p1", "PTS", "OVER", some 10, some 2, none⟩).fair_p = some 1 ∧
    ¬ ((1 : ℝ) ≤ 1 - 1 / 10 ^ 9) := by
  constructor
  · have hfind : findPred
        [⟨"p1", "PTS", some 20, none, none, none, some 0, none, none, none, none⟩]
        "p1" "PTS" =
        some ⟨"p1", "PTS", some 20, none, none, none, some 0, none, none, none, none⟩ := by
      unfold findPred preds_slim dropDupAux
      simp
    show compute_fair_prob
      ((findPred [⟨"p1", "PTS", some 20, none, none, none, some 0, none, none, none, none⟩]
        "p1" "PTS").bind (fun r => r.mean))
      ((findPred [⟨"p1", "PTS", some 20, none, none, none, some 0, none, none, none, none⟩]
        "p1" "PTS").bind (fun r => r.sigma)) "OVER" (some 10) = some 1
    rw [hfind]
    show (if lowerString "OVER" = "over" then some (normal_over_prob 20 0 10)
          else if lowerString "OVER" = "under" then some (normal_under_prob 20 0 10)
          else none) = some 1
    rw [show lowerString "OVER" = "over" from by decide, if_pos rfl,
      normal_over_prob, if_pos (by unfold sigmaEps; norm_num : (0:ℝ) ≤ sigmaEps),
      if_pos (by norm_num : (10:ℝ) < 20)]
  · norm_num

/-- Claim C8 (amended: `build_edges` applies no clamping and computes no fair
odds at all — the stored `fair_p` is the raw model probability, which reaches
exactly `1` in the degenerate-sigma branch, and no `1/probability` division
occurs in the pricing engine): every priced row's `fair_p` is exactly the
unclamped `_compute_fair_prob` value of its merged fields. -/
theorem build_edges_no_clamp (odds : List OddsRow) (preds : List PredRow)
    (rd : String) (hbp : Bool) (o : OddsRow) (ho : o ∈ odds) :
    (priceRow preds rd hbp o).fair_p =
      compute_fair_prob
        ((findPred preds o.player_id o.market).bind (fun p => p.mean))
        ((findPred preds o.player_id o.market).bind (fun p => p.sigma))
        o.side o.line ∧
    priceRow preds rd hbp o ∈ build_edges odds preds rd hbp :=
  ⟨rfl, List.mem_map_of_mem _ ho⟩

/-- Witness for C8 (amended): the identity instantiated at the degenerate row
whose raw probability is `1`. -/
theorem build_edges_no_clamp_witness :
    (⟨"p1", "PTS", "OVER", some 10, some 2, none⟩ : OddsRow) ∈
      [(⟨"p1", "PTS", "OVER", some 10, some 2, none⟩ : OddsRow)] ∧
    (priceRow [⟨"p1", "PTS", some 20, none, none, none, some 0, none, none, none, none⟩]
      "2025-10-27" true ⟨"p1", "PTS", "OVER", some 10, some 2, none⟩).fair_p =
      compute_fair_prob
        ((findPred [⟨"p1", "PTS", some 20, none, none, none, some 0, none, none, none, none⟩]
          "p1" "PTS").bind (fun p => p.mean))
        ((findPred [⟨"p1", "PTS", some 20, none, none, none, some 0, none, none, none, none⟩]
          "p1" "PTS").bind (fun p => p.sigma)) "OVER" (some 10) := by
  have hmem : (⟨"p1", "PTS", "OVER", some 10, some 2, none⟩ : OddsRow) ∈
      [(⟨"p1", "PTS", "OVER", some 10, some 2, none⟩ : OddsRow)] :=
    List.mem_singleton.mpr rfl
  exact ⟨hmem, (build_edges_no_clamp
    [⟨"p1", "PTS", "OVER", some 10, some 2, none⟩]
    [⟨"p1", "PTS", some 20, none, none, none, some 0, none, none, none, none⟩]
    "2025-10-27" true ⟨"p1", "PTS", "OVER", some 10, some 2, none⟩ hmem).1⟩

lemma optSum_three (a b c : Option ℝ) :
    optSum [a, b, c] = a.getD 0 + b.getD 0 + c.getD 0 := by
  rcases a with _ | x <;> rcases b with _ | y <;> rcases c with _ | z <;>
    simp [optSum] <;> ring

lemma sum_sigma_two (a b : ℝ) :
    sum_sigma [some a, some b] = some (Real.sqrt (a ^ 2 + b ^ 2)) := by
  simp [sum_sigma]

lemma sum_sigma_three (a b c : ℝ) :
    sum_sigma [some a, some b, some c] =
      some (Real.sqrt (a ^ 2 + b ^ 2 + c ^ 2)) := by
  simp [sum_sigma]
  ring_nf

/-- A member of `pivotIndex` is the `player_id` of some base row with a
non-NaN mean. -/
lemma pivotIndex_mem (base : List PredRow) (pid : String)
    (h : pid ∈ pivotIndex base) :
    ∃ r ∈ base, r.player_id = pid ∧ (r.mean).isSome := by
  unfold pivotIndex at h
  rw [List.mem_dedup, List.mem_map] at h
  obtain ⟨r, hr, hrid⟩ := h
  rw [List.mem_filter] at hr
  exact ⟨r, hr.1, hrid, hr.2⟩

/-- Claim C4 (code bug): requesting the composite markets over forecasts in
which some base-stat pivot column is entirely absent (here: a single AST
forecast, so no PTS column exists) raises `AttributeError` instead of
synthesizing rows — the chained `wide_mean.get(stat, np.nan).get(pid, np.nan)`
calls `.get` on the float `np.nan`.  When all six pivot columns exist, the
synthesized rows for every player of the pivot index carry mean = sum of the
present constituent means (missing treated as 0), sigma = sqrt of the sum of
the squared present constituent sigmas, and null `p10`/`p90`/`median`. -/
theorem with_composites_synthesis :
    (with_composites
        [⟨"p1", "AST", some 3, none, none, none, some 1, none, none, none, none⟩]
        ["PA", "RA", "PRA"] =
      .error "AttributeError: nan (float) has no attribute get") ∧
    ∀ (df : List PredRow) (pid : String),
      ¬ ((["PA", "RA", "PRA"] : List String).all
          (fun m => df.any (fun r => r.market == m)) = true) →
      pid ∈ pivotIndex (baseOf df) →
      (colPresent (baseOf df) "PTS" (fun r => r.mean) = true ∧
       colPresent (baseOf df) "REB" (fun r => r.mean) = true ∧
       colPresent (baseOf df) "AST" (fun r => r.mean) = true ∧
       colPresent (baseOf df) "PTS" (fun r => r.sigma) = true ∧
       colPresent (baseOf df) "REB" (fun r => r.sigma) = true ∧
       colPresent (baseOf df) "AST" (fun r => r.sigma) = true) →
      ∃ out, with_composites df ["PA", "RA", "PRA"] = .ok out ∧
        (∀ row ∈ compRowsFor ["PA", "RA", "PRA"] (baseOf df) pid, row ∈ out) ∧
        (compRowsFor ["PA", "RA", "PRA"] (baseOf df) pid).map
            (fun r => (r.player_id, r.market, r.mean, r.sigma, r.p10, r.p90, r.median)) =
          [(pid, "PA",
            some ((cellAgg (baseOf df) pid "PTS" (fun r => r.mean)).getD 0 +
                  (cellAgg (baseOf df) pid "AST" (fun r => r.mean)).getD 0),
            sum_sigma [cellAgg (baseOf df) pid "PTS" (fun r => r.sigma),
                       cellAgg (baseOf df) pid "AST" (fun r => r.sigma)],
            none, none, none),
           (pid, "RA",
            some ((cellAgg (baseOf df) pid "REB" (fun r => r.mean)).getD 0 +
                  (cellAgg (baseOf df) pid "AST" (fun r => r.mean)).getD 0),
            sum_sigma [cellAgg (baseOf df) pid "REB" (fun r => r.sigma),
                       cellAgg (baseOf df) pid "AST" (fun r => r.sigma)],
            none, none, none),
           (pid, "PRA",
            some ((cellAgg (baseOf df) pid "PTS" (fun r => r.mean)).getD 0 +
                  (cellAgg (baseOf df) pid "REB" (fun r => r.mean)).getD 0 +
                  (cellAgg (baseOf df) pid "AST" (fun r => r.mean)).getD 0),
            sum_sigma [cellAgg (baseOf df) pid "PTS" (fun r => r.sigma),
                       cellAgg (baseOf df) pid "REB" (fun r => r.sigma),
                       cellAgg (baseOf df) pid "AST" (fun r => r.sigma)],
            none, none, none)] := by
  constructor
  · rfl
  · intro df pid hnotall hpid hcols
    obtain ⟨r0, hr0, hr0id, hr0mean⟩ := pivotIndex_mem _ _ hpid
    have hbase_ne : (baseOf df).isEmpty = false := by
      rw [List.isEmpty_eq_false]
      exact List.ne_nil_of_mem hr0
    have hidx_ne : (pivotIndex (baseOf df)).isEmpty = false := by
      rw [List.isEmpty_eq_false]
      exact List.ne_nil_of_mem hpid
    have hPA : (⟨pid, "PA",
        some ((cellAgg (baseOf df) pid "PTS" (fun r => r.mean)).getD 0 +
              (cellAgg (baseOf df) pid "AST" (fun r => r.mean)).getD 0),
        none, none, none,
        sum_sigma [cellAgg (baseOf df) pid "PTS" (fun r => r.sigma),
                   cellAgg (baseOf df) pid "AST" (fun r => r.sigma)],
        (firstMinByMarket ((baseOf df).filter
          (fun r => r.player_id == pid))).bind (fun r => r.minutes),
        (firstMinByMarket ((baseOf df).filter
          (fun r => r.player_id == pid))).bind (fun r => r.role),
        (firstMinByMarket ((baseOf df).filter
          (fun r => r.player_id == pid))).bind (fun r => r.min_mult),
        (firstMinByMarket ((baseOf df).filter
          (fun r => r.player_id == pid))).bind (fun r => r.rate_mult)⟩ : PredRow) ∈
        compRowsFor ["PA", "RA", "PRA"] (baseOf df) pid := by
      unfold compRowsFor
      simp
    have hrows_ne :
        ((pivotIndex (baseOf df)).map
          (compRowsFor ["PA", "RA", "PRA"] (baseOf df))).flatten.isEmpty = false := by
      rw [List.isEmpty_eq_false]
      apply List.ne_nil_of_mem (a := (⟨pid, "PA",
        some ((cellAgg (baseOf df) pid "PTS" (fun r => r.mean)).getD 0 +
              (cellAgg (baseOf df) pid "AST" (fun r => r.mean)).getD 0),
        none, none, none,
        sum_sigma [cellAgg (baseOf df) pid "PTS" (fun r => r.sigma),
                   cellAgg (baseOf df) pid "AST" (fun r => r.sigma)],
        (firstMinByMarket ((baseOf df).filter
          (fun r => r.player_id == pid))).bind (fun r => r.minutes),
        (firstMinByMarket ((baseOf df).filter
          (fun r => r.player_id == pid))).bind (fun r => r.role),
        (firstMinByMarket ((baseOf df).filter
          (fun r => r.player_id == pid))).bind (fun r => r.min_mult),
        (firstMinByMarket ((baseOf df).filter
          (fun r => r.player_id == pid))).bind (fun r => r.rate_mult)⟩ : PredRow))
      exact List.mem_flatten.mpr ⟨_, List.mem_map_of_mem _ hpid, hPA⟩
    have hval : with_composites df ["PA", "RA", "PRA"] =
        .ok (df ++ ((pivotIndex (baseOf df)).map
          (compRowsFor ["PA", "RA", "PRA"] (baseOf df))).flatten) := by
      unfold with_composites
      rw [if_neg hnotall]
      simp only [hbase_ne, hidx_ne, hrows_ne, Bool.false_eq_true, if_false,
        if_neg (not_not_intro hcols)]
    refine ⟨_, hval, ?_, ?_⟩
    · intro row hrow
      exact List.mem_append_right _
        (List.mem_flatten.mpr ⟨_, List.mem_map_of_mem _ hpid, hrow⟩)
    · unfold compRowsFor
      simp [optSum_three]

/-- Witness for C4: a forecast table with all base columns present — player
`p1` has PTS (mean 10, sigma 3) and AST (mean 5, sigma 4), player `p2` has
REB — synthesizes a `PA` row for `p1` with mean `15` and sigma
`sqrt(3² + 4²) = 5` (the 3-4-5 triangle) and null percentile fields. -/
theorem with_composites_synthesis_witness :
    ∃ out, with_composites
        [⟨"p1", "PTS", some 10, none, none, none, some 3, none, none, none, none⟩,
         ⟨"p1", "AST", some 5, none, none, none, some 4, none, none, none, none⟩,
         ⟨"p2", "REB", some 6, none, none, none, some 1, none, none, none, none⟩]
        ["PA", "RA", "PRA"] = .ok out ∧
      (∃ row ∈ out, row.player_id = "p1" ∧ row.market = "PA" ∧
        row.mean = some 15 ∧ row.sigma = some 5 ∧
        row.p10 = none ∧ row.p90 = none ∧ row.median = none) := by
  have h := (with_composites_synthesis).2
    [⟨"p1", "PTS", some 10, none, none, none, some 3, none, none, none, none⟩,
     ⟨"p1", "AST", some 5, none, none, none, some 4, none, none, none, none⟩,
     ⟨"p2", "REB", some 6, none, none, none, some 1, none, none, none, none⟩]
    "p1" (by decide) (by decide) (by decide)
  obtain ⟨out, hout, hmem, hmap⟩ := h
  have hc1 : cellAgg (baseOf
      [⟨"p1", "PTS", some 10, none, none, none, some 3, none, none, none, none⟩,
       ⟨"p1", "AST", some 5, none, none, none, some 4, none, none, none, none⟩,
       ⟨"p2", "REB", some 6, none, none, none, some 1, none, none, none, none⟩])
      "p1" "PTS" (fun r => r.mean) = some 10 := by
    unfold cellAgg baseOf
    norm_num [show ("AST" : String) ≠ "PTS" from by decide,
      show ("PTS" : String) ≠ "AST" from by decide,
      show ("REB" : String) ≠ "PTS" from by decide,
      show ("REB" : String) ≠ "AST" from by decide,
      show ("p2" : String) ≠ "p1" from by decide,
      List.filterMap_cons, List.sum_cons, List.sum_nil]
  have hc2 : cellAgg (baseOf
      [⟨"p1", "PTS", some 10, none, none, none, some 3, none, none, none, none⟩,
       ⟨"p1", "AST", some 5, none, none, none, some 4, none, none, none, none⟩,
       ⟨"p2", "REB", some 6, none, none, none, some 1, none, none, none, none⟩])
      "p1" "AST" (fun r => r.mean) = some 5 := by
    unfold cellAgg baseOf
    norm_num [show ("AST" : String) ≠ "PTS" from by decide,
      show ("PTS" : String) ≠ "AST" from by decide,
      show ("REB" : String) ≠ "PTS" from by decide,
      show ("REB" : String) ≠ "AST" from by decide,
      show ("p2" : String) ≠ "p1" from by decide,
      List.filterMap_cons, List.sum_cons, List.sum_nil]
  have hs1 : cellAgg (baseOf
      [⟨"p1", "PTS", some 10, none, none, none, some 3, none, none, none, none⟩,
       ⟨"p1", "AST", some 5, none, none, none, some 4, none, none, none, none⟩,
       ⟨"p2", "REB", some 6, none, none, none, some 1, none, none, none, none⟩])
      "p1" "PTS" (fun r => r.sigma) = some 3 := by
    unfold cellAgg baseOf
    norm_num [show ("AST" : String) ≠ "PTS" from by decide,
      show ("PTS" : String) ≠ "AST" from by decide,
      show ("REB" : String) ≠ "PTS" from by decide,
      show ("REB" : String) ≠ "AST" from by decide,
      show ("p2" : String) ≠ "p1" from by decide,
      List.filterMap_cons, List.sum_cons, List.sum_nil]
  have hs2 : cellAgg (baseOf
      [⟨"p1", "PTS", some 10, none, none, none, some 3, none, none, none, none⟩,
       ⟨"p1", "AST", some 5, none, none, none, some 4, none, none, none, none⟩,
       ⟨"p2", "REB", some 6, none, none, none, some 1, none, none, none, none⟩])
      "p1" "AST" (fun r => r.sigma) = some 4 := by
    unfold cellAgg baseOf
    norm_num [show ("AST" : String) ≠ "PTS" from by decide,
      show ("PTS" : String) ≠ "AST" from by decide,
      show ("REB" : String) ≠ "PTS" from by decide,
      show ("REB" : String) ≠ "AST" from by decide,
      show ("p2" : String) ≠ "p1" from by decide,
      List.filterMap_cons, List.sum_cons, List.sum_nil]
  rcases hcr : compRowsFor ["PA", "RA", "PRA"] (baseOf
      [⟨"p1", "PTS", some 10, none, none, none, some 3, none, none, none, none⟩,
       ⟨"p1", "AST", some 5, none, none, none, some 4, none, none, none, none⟩,
       ⟨"p2", "REB", some 6, none, none, none, some 1, none, none, none, none⟩]) "p1"
    with _ | ⟨r, rest⟩
  · rw [hcr] at hmap
    exact absurd hmap (by simp)
  · rw [hcr] at hmap
    simp only [List.map_cons, List.cons.injEq, Prod.mk.injEq] at hmap
    obtain ⟨⟨hid, hmk, hmean, hsig, hp10, hp90, hmed⟩, _⟩ := hmap
    refine ⟨out, hout, r, hmem r (by rw [hcr]; exact List.mem_cons_self r rest),
      hid, hmk, ?_, ?_, hp10, hp90, hmed⟩
    · rw [hmean, hc1, hc2]
      norm_num
    · rw [hsig, hs1, hs2, sum_sigma_two,
        show (3 : ℝ) ^ 2 + 4 ^ 2 = 5 ^ 2 by norm_num,
        Real.sqrt_sq (by norm_num : (0 : ℝ) ≤ 5)]

lemma lookup_cons_ne (k a : String) (b : ℝ) (es : List (String × ℝ))
    (h : a ≠ k) : ((k, b) :: es).lookup a = es.lookup a := by
  rw [List.lookup_cons, beq_false_of_ne h]

lemma lookup_none_not_mem (l : List (String × ℝ)) (a : String)
    (h : l.lookup a = none) : a ∉ l.map Prod.fst := by
  induction l with
  | nil => simp
  | cons p t ih =>
    obtain ⟨k, v⟩ := p
    by_cases hak : a = k
    · subst hak
      rw [List.lookup_cons_self] at h
      cases h
    · rw [lookup_cons_ne k a v t hak] at h
      simp only [List.map_cons, List.mem_cons]
      rintro (h1 | h1)
      · exact hak h1
      · exact ih h h1

lemma lookup_isSome_iff_mem (l : List (String × ℝ)) (a : String) :
    (l.lookup a).isSome ↔ a ∈ l.map Prod.fst := by
  induction l with
  | nil => simp
  | cons p t ih =>
    obtain ⟨k, v⟩ := p
    by_cases hak : a = k
    · subst hak
      simp [List.lookup_cons_self]
    · rw [lookup_cons_ne k a v t hak]
      simp only [List.map_cons, List.mem_cons]
      rw [ih]
      constructor
      · exact Or.inr
      · rintro (h1 | h1)
        · exact absurd h1 hak
        · exact h1

lemma lookup_some_mem (l : List (String × ℝ)) (a : String) (b : ℝ)
    (h : l.lookup a = some b) : (a, b) ∈ l := by
  induction l with
  | nil => simp at h
  | cons p t ih =>
    obtain ⟨k, v⟩ := p
    by_cases hak : a = k
    · subst hak
      rw [List.lookup_cons_self] at h
      cases h
      exact List.mem_cons_self _ _
    · rw [lookup_cons_ne k a v t hak] at h
      exact List.mem_cons_of_mem _ (ih h)

lemma clip644_bounds (x : ℝ) : 6 ≤ clip644 x ∧ clip644 x ≤ 44 := by
  unfold clip644
  exact ⟨le_min (le_max_right _ _) (by norm_num), min_le_right _ _⟩

/-- The shape of a cached minutes draw in the simulator:
`np.clip(rng.normal(mu * min_mult, sd * min_mult), 6, 44)` for some prior row
of that player and some position in the standard-normal stream. -/
def isClipDraw (mt : List (String × ℝ × ℝ)) (pri : List SimPriorRow)
    (stream : ℕ → ℝ) (e : String × ℝ) : Prop :=
  ∃ row ∈ pri, row.player_id = e.1 ∧ ∃ k,
    e.2 = clip644 ((minutesOf mt e.1).1 * row.min_mult.getD 1 +
      (minutesOf mt e.1).2 * row.min_mult.getD 1 * stream k)

lemma isClipDraw_mono (mt : List (String × ℝ × ℝ)) (row : SimPriorRow)
    (rest : List SimPriorRow) (stream : ℕ → ℝ) (e : String × ℝ)
    (h : isClipDraw mt rest stream e) : isClipDraw mt (row :: rest) stream e := by
  obtain ⟨q, hq, hqe, k, hk⟩ := h
  exact ⟨q, List.mem_cons_of_mem _ hq, hqe, k, hk⟩

/-- The inductive invariant of the simulator loop: the generator stream is
preserved, the minutes cache only grows, every output row's minutes equals its
player's (unique) cached value, every new cache entry is a clipped scaled
normal draw, and the cache keys are exactly the players seen, without
duplicates. -/
lemma simLoop_invariant (rd : String) (mt : List (String × ℝ × ℝ)) (sf : SampleFn)
    (hsf : ∀ a b m rm pc g, ((sf a b m rm pc g).2).normals = g.normals)
    (pace : ℝ) (pri : List SimPriorRow) :
    ∀ (cache : List (String × ℝ)) (g : RNG),
      ((simLoop rd mt sf pace pri cache g).2.2).normals = g.normals ∧
      (∀ pid v, cache.lookup pid = some v →
        ((simLoop rd mt sf pace pri cache g).2.1).lookup pid = some v) ∧
      (∀ r ∈ (simLoop rd mt sf pace pri cache g).1,
        ((simLoop rd mt sf pace pri cache g).2.1).lookup r.player_id =
          some r.minutes) ∧
      (∀ e ∈ (simLoop rd mt sf pace pri cache g).2.1,
        e ∈ cache ∨ isClipDraw mt pri g.normals e) ∧
      (∀ pid, (((simLoop rd mt sf pace pri cache g).2.1).lookup pid).isSome ↔
        (cache.lookup pid).isSome ∨ pid ∈ pri.map (fun q => q.player_id)) ∧
      ((cache.map Prod.fst).Nodup →
        (((simLoop rd mt sf pace pri cache g).2.1).map Prod.fst).Nodup) := by
  induction pri with
  | nil =>
    intro cache g
    refine ⟨rfl, fun pid v h => h, ?_, ?_, ?_, fun h => h⟩
    · intro r hr
      simp [simLoop] at hr
    · intro e he
      exact Or.inl he
    · intro pid
      simp [simLoop]
  | cons row rest ih =>
    intro cache g
    cases hl : cache.lookup row.player_id with
    | some v =>
      simp only [simLoop, hl]
      obtain ⟨ih1, ih2, ih3, ih4, ih5, ih6⟩ :=
        ih cache (sf row.alpha row.beta v (row.rate_mult.getD 1) pace g).2
      refine ⟨ih1.trans (hsf _ _ _ _ _ _), ih2, ?_, ?_, ?_, ih6⟩
      · intro r hr
        rcases List.mem_cons.mp hr with rfl | hr
        · exact ih2 row.player_id v hl
        · exact ih3 r hr
      · intro e he
        rcases ih4 e he with hc | hd
        · exact Or.inl hc
        · right
          rw [hsf] at hd
          exact isClipDraw_mono _ _ _ _ _ hd
      · intro pid
        rw [ih5 pid]
        simp only [List.map_cons, List.mem_cons]
        constructor
        · rintro (hc | hr)
          · exact Or.inl hc
          · exact Or.inr (Or.inr hr)
        · rintro (hc | heq | hr)
          · exact Or.inl hc
          · subst heq
            left
            rw [hl]
            rfl
          · exact Or.inr hr
    | none =>
      simp only [simLoop, hl, rngNormal]
      obtain ⟨ih1, ih2, ih3, ih4, ih5, ih6⟩ :=
        ih ((row.player_id,
            clip644 ((minutesOf mt row.player_id).1 * row.min_mult.getD 1 +
              (minutesOf mt row.player_id).2 * row.min_mult.getD 1 *
                g.normals g.k)) :: cache)
          (sf row.alpha row.beta
            (clip644 ((minutesOf mt row.player_id).1 * row.min_mult.getD 1 +
              (minutesOf mt row.player_id).2 * row.min_mult.getD 1 *
                g.normals g.k))
            (row.rate_mult.getD 1) pace ⟨g.normals, g.k + 1⟩).2
      have hnew : ((row.player_id,
          clip644 ((minutesOf mt row.player_id).1 * row.min_mult.getD 1 +
            (minutesOf mt row.player_id).2 * row.min_mult.getD 1 *
              g.normals g.k)) :: cache).lookup row.player_id =
          some (clip644 ((minutesOf mt row.player_id).1 * row.min_mult.getD 1 +
            (minutesOf mt row.player_id).2 * row.min_mult.getD 1 *
              g.normals g.k)) :=
        List.lookup_cons_self
      refine ⟨ih1.trans (hsf _ _ _ _ _ _), ?_, ?_, ?_, ?_, ?_⟩
      · intro pid v0 h0
        have hne : pid ≠ row.player_id := by
          intro heq
          rw [heq, hl] at h0
          cases h0
        exact ih2 pid v0 (by rwa [lookup_cons_ne _ _ _ _ hne])
      · intro r hr
        rcases List.mem_cons.mp hr with rfl | hr
        · exact ih2 _ _ hnew
        · exact ih3 r hr
      · intro e he
        rcases ih4 e he with hc | hd
        · rcases List.mem_cons.mp hc with rfl | hc
          · right
            exact ⟨row, List.mem_cons_self _ _, rfl, g.k, rfl⟩
          · exact Or.inl hc
        · right
          rw [hsf] at hd
          exact isClipDraw_mono _ _ _ _ _ hd
      · intro pid
        rw [ih5 pid]
        simp only [List.map_cons, List.mem_cons]
        by_cases hpe : pid = row.player_id
        · subst hpe
          rw [hnew]
          simp
        · rw [lookup_cons_ne _ _ _ _ hpe]
          constructor
          · rintro (hc | hr)
            · exact Or.inl hc
            · exact Or.inr (Or.inr hr)
          · rintro (hc | heq | hr)
            · exact Or.inl hc
            · exact absurd heq hpe
            · exact Or.inr hr
      · intro hnd
        apply ih6
        simp only [List.map_cons, List.nodup_cons]
        exact ⟨lookup_none_not_mem cache row.player_id hl, hnd⟩

/-- Claim C9: in every simulation run, exactly one minutes value is drawn per
player (the cache keys are exactly the distinct players, without duplicates),
the draw uses mean and sd scaled by the player's minutes multiplier, the value
is clipped into `[6, 44]`, and the same value is reused for every statistic of
that player — for ANY posterior-sampling function that leaves the draw stream
unchanged. -/
theorem simulator_minutes_coherence (rd : String) (pri : List SimPriorRow)
    (mt : List (String × ℝ × ℝ)) (sf : SampleFn) (g0 : RNG)
    (hsf : ∀ a b m rm pc g, ((sf a b m rm pc g).2).normals = g.normals) :
    (∀ r1 ∈ simMain rd pri mt sf g0, ∀ r2 ∈ simMain rd pri mt sf g0,
      r1.player_id = r2.player_id → r1.minutes = r2.minutes) ∧
    (∀ r ∈ simMain rd pri mt sf g0, 6 ≤ r.minutes ∧ r.minutes ≤ 44) ∧
    (∀ r ∈ simMain rd pri mt sf g0, ∃ row ∈ pri, row.player_id = r.player_id ∧
      ∃ k, r.minutes =
        clip644 ((minutesOf mt r.player_id).1 * row.min_mult.getD 1 +
          (minutesOf mt r.player_id).2 * row.min_mult.getD 1 * g0.normals k)) ∧
    (((simLoop rd mt sf (rngNormal g0 1 (5 / 100)).1 pri []
        (rngNormal g0 1 (5 / 100)).2).2.1).map Prod.fst).Nodup ∧
    (∀ pid, pid ∈ ((simLoop rd mt sf (rngNormal g0 1 (5 / 100)).1 pri []
        (rngNormal g0 1 (5 / 100)).2).2.1).map Prod.fst ↔
      pid ∈ pri.map (fun q => q.player_id)) := by
  obtain ⟨h1, h2, h3, h4, h5, h6⟩ := simLoop_invariant rd mt sf hsf
    (rngNormal g0 1 (5 / 100)).1 pri [] (rngNormal g0 1 (5 / 100)).2
  have hentry : ∀ e ∈ (simLoop rd mt sf (rngNormal g0 1 (5 / 100)).1 pri []
      (rngNormal g0 1 (5 / 100)).2).2.1, isClipDraw mt pri g0.normals e := by
    intro e he
    rcases h4 e he with hc | hd
    · cases hc
    · exact hd
  refine ⟨?_, ?_, ?_, h6 (by simp), ?_⟩
  · intro r1 hr1 r2 hr2 heq
    have e1 := h3 r1 hr1
    have e2 := h3 r2 hr2
    rw [heq] at e1
    exact Option.some.inj (e1.symm.trans e2)
  · intro r hr
    have e := h3 r hr
    obtain ⟨row, hrow, hpid, k, hk⟩ := hentry _ (lookup_some_mem _ _ _ e)
    have hk2 : r.minutes =
        clip644 ((minutesOf mt r.player_id).1 * row.min_mult.getD 1 +
          (minutesOf mt r.player_id).2 * row.min_mult.getD 1 * g0.normals k) := hk
    rw [hk2]
    exact clip644_bounds _
  · intro r hr
    have e := h3 r hr
    obtain ⟨row, hrow, hpid, k, hk⟩ := hentry _ (lookup_some_mem _ _ _ e)
    exact ⟨row, hrow, hpid, k, hk⟩
  · intro pid
    rw [← lookup_isSome_iff_mem, h5 pid]
    simp

def priC9 : List SimPriorRow :=
  [⟨"p1", "PTS", 90, 200, none, none, none⟩,
   ⟨"p1", "REB", 24, 200, none, none, none⟩]

def sumC9 : Summary := ⟨0, 0, 0, 0, 0⟩

def sfC9 : SampleFn := fun _ _ _ _ _ g => (sumC9, g)

def gC9 : RNG := ⟨fun _ => 0, 0⟩

/-- Witness for C9: two prior rows for the same player (PTS and REB) under a
constant-zero standard-normal stream; both output rows carry the identical
clipped minutes value `clip(30·1 + 4·1·0) = 30`, and the cache has no
duplicate player. -/
theorem simulator_minutes_coherence_witness :
    (∀ a b m rm pc g, ((sfC9 a b m rm pc g).2).normals = g.normals) ∧
    (simMain "2025-10-27" priC9 [] sfC9 gC9).map (fun r => r.minutes) =
      [30, 30] ∧
    (((simLoop "2025-10-27" [] sfC9 (rngNormal gC9 1 (5 / 100)).1 priC9 []
        (rngNormal gC9 1 (5 / 100)).2).2.1).map Prod.fst).Nodup := by
  have h := simulator_minutes_coherence "2025-10-27" priC9 [] sfC9 gC9
    (fun _ _ _ _ _ _ => rfl)
  refine ⟨fun _ _ _ _ _ _ => rfl, ?_, h.2.2.2.1⟩
  have h30 : clip644 (30 : ℝ) = 30 := by
    unfold clip644
    norm_num
  simp [simMain, simLoop, rngNormal, minutesOf, priC9, sfC9, gC9, h30]

/-- Claim C5 (the code contradicts its own comment, line 64 of `simulator.py`:
"Date-stable randomness so the same --date yields identical results"): the
seed `abs(hash(run_date)) % 2**32` depends on the per-process salt of Python's
built-in string hash, so it is NOT a function of `run_date` alone — two valid
process hash functions give different seeds for the same date.  The two
concrete values below are `abs(hash("2025-10-27")) % 2**32` observed under
`PYTHONHASHSEED=0` and `PYTHONHASHSEED=1` respectively. -/
theorem simSeed_process_dependent :
    ∃ h₁ h₂ : String → ℤ,
      h₁ "2025-10-27" = 120614253 ∧ h₂ "2025-10-27" = 150642094 ∧
      simSeed h₁ "2025-10-27" ≠ simSeed h₂ "2025-10-27" := by
  refine ⟨fun _ => 120614253, fun _ => 150642094, rfl, rfl, ?_⟩
  unfold simSeed
  norm_num

end NbaProj
